import Mathlib

/-!
Verification development for the Minecraft vote-leaderboard synchronization
bot (src/index.js). The JavaScript source is shallowly embedded below:
pure functions become Lean functions, the per-cycle body of
updateVoteMessage becomes a pure transition function over an explicit
environment (fetch results, stored database row, message-existence oracle),
and JavaScript 32-bit integer arithmetic is modelled with Int plus explicit
wrapping. Machine-level aspects that are fixed for the inputs we treat
(UTF-16 code units vs code points, JSON key ordering as stored in our
structures, V8's date parser restricted to the data provider's documented
timestamp format) are noted at each definition.
-/

namespace VoteBot

set_option maxRecDepth 100000

/-- Left-pad a nonnegative integer to two digits, as
String(n).padStart(2, "0") does in the source (lines 127-133 of
src/index.js). -/
def pad2 (n : Int) : String :=
  if n < 10 then "0" ++ toString n else toString n

/-- Wrap an integer to the range of a 32-bit signed integer, modelling
JavaScript's ToInt32 coercion that the expression hash & hash performs. -/
def toInt32 (n : Int) : Int :=
  (n + 2147483648) % 4294967296 - 2147483648

/-! ## Time normalizer: convertESTtoIST (src/index.js lines 113-144) -/

/-- Whitespace test used by the model of String.prototype.trim. The
source's inputs only ever contain ASCII whitespace. -/
def isSpaceChar (c : Char) : Bool :=
  c = ' ' || c = '\t' || c = '\n' || c = '\r'

/-- Model of String.prototype.trim on a character list. -/
def trimChars (l : List Char) : List Char :=
  ((l.dropWhile isSpaceChar).reverse.dropWhile isSpaceChar).reverse

/-- Remove the first occurrence of the pattern from the list, modelling
String.prototype.replace with a plain-string pattern and empty
replacement (the .replace(" EST", "") call at line 118). -/
def removeFirstSub (pat : List Char) : List Char → List Char
  | [] => []
  | c :: rest =>
    if pat.isPrefixOf (c :: rest) then (c :: rest).drop pat.length
    else c :: removeFirstSub pat rest

/-- Two-character ordinal day suffixes recognized by the regular
expression (st|nd|rd|th) at line 120. -/
def isOrdSuffix (a b : Char) : Bool :=
  (a = 's' && b = 't') || (a = 'n' && b = 'd') ||
  (a = 'r' && b = 'd') || (a = 't' && b = 'h')

/-- Model of .replace(regex-digits-then-ordinal-suffix, digits): delete the
two-letter ordinal suffix after the first digit run that carries one.
Only the first match is replaced, as the source regex has no g flag. -/
def stripOrdAux : List Char → List Char
  | c :: a :: b :: rest =>
    if c.isDigit then
      if a.isDigit then c :: stripOrdAux (a :: b :: rest)
      else if isOrdSuffix a b then c :: rest
      else c :: stripOrdAux (a :: b :: rest)
    else c :: stripOrdAux (a :: b :: rest)
  | l => l

/-- The cleaned date string handed to the Date constructor at line 122:
strip the first " EST", trim, strip the first ordinal day suffix. -/
def cleanDateStr (s : String) : String :=
  (stripOrdAux (trimChars (removeFirstSub (" EST").toList s.toList))).asString

/-- Split a character list at every occurrence of the separator. -/
def splitOnChar (sep : Char) (l : List Char) : List (List Char) :=
  l.foldr
    (fun x acc =>
      match acc with
      | [] => [[x]]
      | cur :: rest => if x = sep then [] :: cur :: rest else (x :: cur) :: rest)
    [[]]

/-- English month names as V8's date parser accepts them in the data
provider's timestamp format. -/
def monthNum (l : List Char) : Option Nat :=
  if l = ("January").toList then some 1
  else if l = ("February").toList then some 2
  else if l = ("March").toList then some 3
  else if l = ("April").toList then some 4
  else if l = ("May").toList then some 5
  else if l = ("June").toList then some 6
  else if l = ("July").toList then some 7
  else if l = ("August").toList then some 8
  else if l = ("September").toList then some 9
  else if l = ("October").toList then some 10
  else if l = ("November").toList then some 11
  else if l = ("December").toList then some 12
  else none

/-- Decimal digit-run to number; none when empty or not all digits. -/
def digitsToNat (l : List Char) : Option Nat :=
  if l ≠ [] ∧ l.all Char.isDigit then
    some (l.foldl (fun n c => n * 10 + (c.toNat - 48)) 0)
  else none

/-- Days since 1970-01-01 of a proleptic-Gregorian civil date
(the standard era-based civil-calendar conversion). -/
def daysFromCivil (y m d : Int) : Int :=
  let yAdj := y - (if m ≤ 2 then 1 else 0)
  let era := Int.fdiv yAdj 400
  let yoe := yAdj - era * 400
  let mp := m + (if m > 2 then (-3 : Int) else 9)
  let doy := (153 * mp + 2) / 5 + d - 1
  let doe := yoe * 365 + yoe / 4 - yoe / 100 + doy
  era * 146097 + doe - 719468

/-- Civil date (year, month, day) of a count of days since 1970-01-01,
inverse of daysFromCivil. -/
def civilFromDays (z0 : Int) : Int × Int × Int :=
  let z := z0 + 719468
  let era := Int.fdiv z 146097
  let doe := z - era * 146097
  let yoe := (doe - doe / 1460 + doe / 36524 - doe / 146096) / 365
  let y := yoe + era * 400
  let doy := doe - (365 * yoe + yoe / 4 - yoe / 100)
  let mp := (5 * doy + 2) / 153
  let d := doy - (153 * mp + 2) / 5 + 1
  let m := mp + (if mp < 10 then 3 else -9)
  (y + (if m ≤ 2 then 1 else 0), m, d)

/-- Model of V8's Date parse for the data provider's timestamp layout
(for example "July 23, 2025 02:27 AM" after cleaning): month name,
day, year, 12-hour clock time, AM or PM. Returns the parsed civil
date-time as seconds since epoch read as if the fields were UTC;
the caller applies the fixed GMT-0500 anchor the source appends.
Inputs outside this layout yield none, which the source surfaces as
an invalid-date condition. -/
def parseCivil (s : String) : Option Int :=
  match (splitOnChar ' ' (s.toList.map fun c => if c = ',' then ' ' else c)).filter
      (fun t => t ≠ []) with
  | [mon, d, y, hm, ap] => do
    let m ← monthNum mon
    let dd ← digitsToNat d
    let yy ← digitsToNat y
    let (hh, mm) ←
      match splitOnChar ':' hm with
      | [a, b] => do
        let h ← digitsToNat a
        let mi ← digitsToNat b
        pure (h, mi)
      | _ => none
    let pm ← if ap = ("AM").toList then some false
             else if ap = ("PM").toList then some true
             else none
    if 1 ≤ dd ∧ dd ≤ 31 ∧ 1 ≤ hh ∧ hh ≤ 12 ∧ mm ≤ 59 then
      let h24 : Nat := (if hh = 12 then 0 else hh) + (if pm then 12 else 0)
      some (daysFromCivil (Int.ofNat yy) (Int.ofNat m) (Int.ofNat dd) * 86400
        + Int.ofNat h24 * 3600 + Int.ofNat mm * 60)
    else none
  | _ => none

/-- Render an epoch instant the way lines 127-139 of src/index.js do:
through the host-local accessors getDate, getMonth, getFullYear,
getHours, getMinutes, getSeconds, then the template
day/month/year, 12-hour clock with padded minutes and seconds, AM/PM,
and a hard-coded " IST" suffix. hostOffMin is the host timezone's
offset east of UTC in minutes, the parameter those local accessors
implicitly consult. -/
def renderLocal (hostOffMin : Int) (epoch : Int) : String :=
  let localSec := epoch + hostOffMin * 60
  let days := Int.fdiv localSec 86400
  let sod := localSec - days * 86400
  let c := civilFromDays days
  let h24 := sod / 3600
  let mi := (sod / 60) % 60
  let se := sod % 60
  let ampm := if h24 ≥ 12 then "PM" else "AM"
  let h12 := h24 % 12
  let h12 := if h12 = 0 then 12 else h12
  pad2 c.2.2 ++ "/" ++ pad2 c.2.1 ++ "/" ++ toString c.1 ++ ", " ++
    toString h12 ++ ":" ++ pad2 mi ++ ":" ++ pad2 se ++ " " ++ ampm ++ " IST"

/-- Embedding of convertESTtoIST (src/index.js lines 113-144). Empty and
"Unknown" inputs return the sentinel; the cleaned remainder is parsed
anchored at GMT-0500 (the string appended at line 122, folded here
into the +5h term), 10.5 hours are added, and the result is rendered
through host-local accessors, so the display depends on hostOffMin. -/
def convertESTtoIST (hostOffMin : Int) (estDateString : String) : String :=
  if estDateString = "" ∨ estDateString = "Unknown" then "Unknown"
  else
    match parseCivil (cleanDateStr estDateString) with
    | none => "Invalid Date"
    | some wall =>
      let estEpoch := wall + 5 * 3600
      let istEpoch := estEpoch + 37800
      renderLocal hostOffMin istEpoch

/-! ## Raw data model -/

/-- One element of the raw voters array from the standings fetch. The
extra field carries raw JSON properties that the shaping logic never
reads; JSON.stringify serializes them after the named fields, in the
order stored here. -/
structure Voter where
  nickname : String
  votes : String
  extra : List (String × String) := []
deriving DecidableEq, Repr

/-- One element of the raw votes array from the events fetch. -/
structure Vote where
  nickname : String
  date : String
  timestamp : Int
  extra : List (String × String) := []
deriving DecidableEq, Repr

/-- The standings fetch payload. A missing voters property (undefined in
JavaScript) is modelled by none. -/
structure VoteData where
  name : Option String := none
  voters : Option (List Voter) := none
deriving DecidableEq, Repr

/-- The events fetch payload. -/
structure TimestampData where
  votes : List Vote := []
deriving DecidableEq, Repr

/-- The persisted VoteData mongoose document (src/index.js lines 8-14):
key, last fingerprint (empty by default), last published message id
(null by default), and the update timestamp modelled as a tick. -/
structure SyncState where
  serverId : String
  lastUpdateHash : String := ""
  lastMessageId : Option String := none
  updatedAt : Nat := 0
deriving DecidableEq, Repr

/-- Outcome of channel.messages.fetch on a recorded message id: the
message exists, the transport definitely reports it missing, or the
read fails transiently. The source's try/catch cannot tell the last
two apart. -/
inductive FetchResult where
  | found
  | notFound
  | transientError
deriving DecidableEq, Repr

/-- Observable transport action taken by one cycle. -/
inductive Action where
  | send (body : String)
  | edit (messageId : String) (body : String)
deriving DecidableEq, Repr

/-- Result of one cycle: the transport actions performed, in order, and
the SyncState document passed to save, none when nothing was saved. -/
structure CycleResult where
  actions : List Action
  saved : Option SyncState
deriving DecidableEq, Repr

/-! ## Sorting (Array.prototype.sort, stable since ES2019) -/

/-- Stable insertion of x after every element the comparator puts
strictly before it. -/
def insertBy (lt : α → α → Bool) (x : α) : List α → List α
  | [] => [x]
  | e :: t => if lt e x then e :: insertBy lt x t else x :: e :: t

/-- Stable sort by a strictly-before test, modelling the stable
Array.prototype.sort of modern JavaScript engines. -/
def sortBy (lt : α → α → Bool) : List α → List α
  | [] => []
  | h :: t => insertBy lt h (sortBy lt t)

/-- Model of JavaScript parseInt with radix 10 on the source's vote-count
strings: skip leading whitespace, optional sign, then the longest
leading digit run; none models NaN. -/
def parseIntJS (s : String) : Option Int :=
  let l := s.toList.dropWhile isSpaceChar
  let signAndRest : Int × List Char :=
    match l with
    | '-' :: t => (-1, t)
    | '+' :: t => (1, t)
    | t => (1, t)
  let digits := signAndRest.2.takeWhile Char.isDigit
  if digits.isEmpty then none
  else some (signAndRest.1 *
    Int.ofNat (digits.foldl (fun n c => n * 10 + (c.toNat - 48)) 0))

/-- The voter comparator (a, b) => parseInt(b.votes) - parseInt(a.votes)
at line 157, read as the strictly-before test: a precedes b exactly
when the comparator is negative; a NaN comparator result counts as
zero per the ECMAScript sort specification. -/
def ltVoter (a b : Voter) : Bool :=
  match parseIntJS a.votes, parseIntJS b.votes with
  | some x, some y => decide (x > y)
  | _, _ => false

/-- The vote comparator (a, b) => b.timestamp - a.timestamp at line 150,
as the strictly-before test. -/
def ltVote (a b : Vote) : Bool :=
  decide (a.timestamp > b.timestamp)

/-! ## Record shaping (src/index.js lines 146-182) -/

/-- Embedding of getLatestTimestampForUser (lines 146-152): filter the
events to the nickname, stable-sort by timestamp descending, return
the head, or none when no event matches. -/
def getLatestTimestampForUser (timestamps : TimestampData) (nickname : String) :
    Option Vote :=
  let userVotes := timestamps.votes.filter (fun v => v.nickname == nickname)
  match sortBy ltVote userVotes with
  | [] => none
  | v :: _ => some v

/-- The shaped leaderboard record: nickname, the vote-count string as
displayed, and the normalized last-activity display. -/
structure LRecord where
  nickname : String
  votes : String
  lastVote : String
deriving DecidableEq, Repr

/-- The per-voter record built inside the createVoteEmbed loop
(lines 170-176): latest matching event through the time normalizer,
or the "Unknown" sentinel when no event matches. -/
def toRecord (hostOffMin : Int) (timestampData : TimestampData) (voter : Voter) :
    LRecord :=
  { nickname := voter.nickname
    votes := voter.votes
    lastVote :=
      match getLatestTimestampForUser timestampData voter.nickname with
      | some lv => convertESTtoIST hostOffMin lv.date
      | none => "Unknown" }

/-- The shaped record sequence of one cycle: voters stable-sorted by the
parseInt comparator descending (line 157), each paired with its
last-activity display. This is the record view of the data the embed
renders, the shape operation of the specification. -/
def shape (hostOffMin : Int) (voters : List Voter) (timestampData : TimestampData) :
    List LRecord :=
  (sortBy ltVoter voters).map (toRecord hostOffMin timestampData)

/-- One numbered list entry of the embed description (lines 174-176);
index is 0-based here and displayed 1-based. -/
def entryFor (hostOffMin : Int) (timestampData : TimestampData) (index : Nat)
    (voter : Voter) : String :=
  let lastVoteDate :=
    match getLatestTimestampForUser timestampData voter.nickname with
    | some lv => convertESTtoIST hostOffMin lv.date
    | none => "Unknown"
  "**" ++ toString (index + 1) ++ ".** " ++ voter.nickname ++ "\n" ++
    "**Votes:** " ++ voter.votes ++ "\n" ++
    "**Last Vote:** " ++ lastVoteDate ++ "\n\n"

/-- Embedding of createVoteEmbed (lines 154-182), reduced to the message
body it sets as the embed description: none when the guard
(!voteData || !voteData.voters || !timestampData) fires, the fixed
placeholder for an empty voters list, otherwise the accumulated
numbered list over the sorted voters. -/
def createVoteEmbed (hostOffMin : Int) (voteData : Option VoteData)
    (timestampData : Option TimestampData) : Option String :=
  match voteData, timestampData with
  | some vd, some td =>
    match vd.voters with
    | none => none
    | some voters =>
      let sortedVoters := sortBy ltVoter voters
      if sortedVoters.length = 0 then some ("No votes this month yet!")
      else
        some ((sortedVoters.foldl
          (fun acc voter => (acc.1 ++ entryFor hostOffMin td acc.2 voter, acc.2 + 1))
          ("", 0)).1)
  | _, _ => none

/-! ## Fingerprint (src/index.js lines 184-197) -/

/-- JSON string escaping for the characters that can occur in the
source's payloads; other control characters do not occur in the data
this development evaluates. -/
def jsonEscapeChar (c : Char) : String :=
  if c = '\"' then "\\\"" else if c = '\\' then "\\\\"
  else if c = '\n' then "\\n" else if c = '\t' then "\\t"
  else if c = '\r' then "\\r" else String.singleton c

/-- Escape every character of a string for JSON output. -/
def jsonEscape (s : String) : String :=
  String.join (s.toList.map jsonEscapeChar)

/-- A JSON string literal. -/
def jsonStr (s : String) : String :=
  "\"" ++ jsonEscape s ++ "\""

/-- Extra raw JSON properties rendered after the named fields. -/
def jsonExtra (extra : List (String × String)) : String :=
  String.join (extra.map fun p => "," ++ jsonStr p.1 ++ ":" ++ jsonStr p.2)

/-- JSON.stringify of one raw voter object, fields in stored order. -/
def serializeVoter (v : Voter) : String :=
  "\x7b" ++ jsonStr ("nickname") ++ ":" ++ jsonStr v.nickname ++ "," ++
    jsonStr ("votes") ++ ":" ++ jsonStr v.votes ++ jsonExtra v.extra ++ "\x7d"

/-- JSON.stringify of one raw vote-event object, fields in stored order;
the numeric timestamp is rendered unquoted. -/
def serializeVote (v : Vote) : String :=
  "\x7b" ++ jsonStr ("nickname") ++ ":" ++ jsonStr v.nickname ++ "," ++
    jsonStr ("date") ++ ":" ++ jsonStr v.date ++ "," ++
    jsonStr ("timestamp") ++ ":" ++ toString v.timestamp ++
    jsonExtra v.extra ++ "\x7d"

/-- JSON array of pre-rendered elements. -/
def jsonArray (elems : List String) : String :=
  "[" ++ String.intercalate "," elems ++ "]"

/-- The string JSON.stringify produces at lines 185-188: an object with
the raw voters array (empty when the payload or its voters property
is missing) and the raw votes array. This is the exact hash input of
generateDataHash; note it serializes the raw fetch payloads in their
fetched order, not the shaped records. -/
def serializeRaw (voteData : Option VoteData) (timestampData : Option TimestampData) :
    String :=
  "\x7b" ++ jsonStr ("voters") ++ ":" ++
    jsonArray (((voteData.bind VoteData.voters).getD []).map serializeVoter) ++
    "," ++ jsonStr ("timestamps") ++ ":" ++
    jsonArray (((timestampData.map TimestampData.votes).getD []).map serializeVote) ++
    "\x7d"

/-- One iteration of the hash loop at lines 191-195:
hash = ((hash << 5) - hash) + char, then hash & hash, with JavaScript
32-bit wrapping on the shift and on the & coercion. -/
def hashStep (h : Int) (c : Nat) : Int :=
  toInt32 (toInt32 (h * 32) - h + Int.ofNat c)

/-- The rolling hash of a string, folding hashStep over its UTF-16 code
units (all characters involved here are ASCII, where code units and
code points agree). -/
def hashString (s : String) : Int :=
  s.toList.foldl (fun h c => hashStep h c.toNat) 0

/-- Embedding of generateDataHash (lines 184-197): decimal string of the
32-bit rolling hash of the serialized raw payloads. -/
def generateDataHash (voteData : Option VoteData)
    (timestampData : Option TimestampData) : String :=
  toString (hashString (serializeRaw voteData timestampData))

/-! ## Reconciliation cycle (src/index.js lines 199-274) -/

/-- Embedding of one updateVoteMessage cycle as a pure transition.
Arguments stand for the environment the cycle reads: whether the
channel fetch succeeds, the two fetch results (none models a fetch
that returned null), the stored VoteData row (none when findOne finds
nothing), the server key, the outcome of channel.messages.fetch per
message id, the id the transport would assign to a newly sent
message, and the current tick for updatedAt. Any exception path that
reaches the outer catch yields no action and no save. -/
def updateVoteMessage (hostOffMin : Int) (channelFound : Bool)
    (voteData : Option VoteData) (timestampData : Option TimestampData)
    (stored0 : Option SyncState) (serverKey : String)
    (msgFetch : String → FetchResult) (newMsgId : String) (now : Nat) :
    CycleResult :=
  if channelFound = false then { actions := [], saved := none }
  else
    match voteData, timestampData with
    | some vd, some td =>
      let newHash := generateDataHash (some vd) (some td)
      let stored := stored0.getD { serverId := serverKey }
      if stored.lastUpdateHash = newHash then
        match stored.lastMessageId with
        | some mid =>
          match msgFetch mid with
          | .found => { actions := [], saved := none }
          | _ =>
            match createVoteEmbed hostOffMin (some vd) (some td) with
            | none => { actions := [], saved := none }
            | some body =>
              { actions := [.send body]
                saved := some { stored with
                  lastMessageId := some newMsgId
                  lastUpdateHash := newHash
                  updatedAt := now } }
        | none => { actions := [], saved := none }
      else
        match createVoteEmbed hostOffMin (some vd) (some td) with
        | none => { actions := [], saved := none }
        | some body =>
          match stored.lastMessageId with
          | some mid =>
            match msgFetch mid with
            | .found =>
              { actions := [.edit mid body]
                saved := some { stored with
                  lastUpdateHash := newHash
                  updatedAt := now } }
            | _ =>
              { actions := [.send body]
                saved := some { stored with
                  lastMessageId := some newMsgId
                  lastUpdateHash := newHash
                  updatedAt := now } }
          | none =>
            { actions := [.send body]
              saved := some { stored with
                lastMessageId := some newMsgId
                lastUpdateHash := newHash
                updatedAt := now } }
    | _, _ => { actions := [], saved := none }

/-! ## Specification-side shaping, for the refinement claim C7 -/

/-- First vote event with maximal timestamp, earlier events winning ties,
written from the specification's words for the record shaper: select
the event with matching nickname and maximal epochOrdinal, ties
broken first-seen. -/
def argmaxFirst : List Vote → Option Vote
  | [] => none
  | v :: t =>
    match argmaxFirst t with
    | none => some v
    | some m => if m.timestamp > v.timestamp then some m else some v

/-- The record comparator induced by the voter comparator on shaped
records (records carry the vote-count string unchanged). -/
def ltRecord (a b : LRecord) : Bool :=
  match parseIntJS a.votes, parseIntJS b.votes with
  | some x, some y => decide (x > y)
  | _, _ => false

/-- Shaping as the specification words it (section 4.3): for each
standing, pair it with the matching event of maximal ordinal
(first-seen wins ties) or the "Unknown" sentinel, then stable-sort
the records by vote count descending. -/
def shapeSpec (hostOffMin : Int) (voters : List Voter)
    (timestampData : TimestampData) : List LRecord :=
  sortBy ltRecord (voters.map fun voter =>
    { nickname := voter.nickname
      votes := voter.votes
      lastVote :=
        match argmaxFirst
            (timestampData.votes.filter (fun v => v.nickname == voter.nickname)) with
        | some e => convertESTtoIST hostOffMin e.date
        | none => "Unknown" })

/-! ## General lemmas about the stable insertion sort -/

theorem insertBy_ne_nil (lt : α → α → Bool) (x : α) (s : List α) :
    insertBy lt x s ≠ [] := by
  cases s with
  | nil => simp [insertBy]
  | cons e t => simp only [insertBy]; split <;> simp

theorem sortBy_eq_nil_iff (lt : α → α → Bool) (l : List α) :
    sortBy lt l = [] ↔ l = [] := by
  cases l with
  | nil => simp [sortBy]
  | cons h t => simp [sortBy, insertBy_ne_nil]

theorem mem_insertBy (lt : α → α → Bool) (x y : α) (s : List α) :
    y ∈ insertBy lt x s ↔ y = x ∨ y ∈ s := by
  induction s with
  | nil => simp [insertBy]
  | cons e t ih =>
    simp only [insertBy]
    split
    all_goals simp only [List.mem_cons, ih]
    all_goals tauto

theorem mem_sortBy (lt : α → α → Bool) (y : α) (l : List α) :
    y ∈ sortBy lt l ↔ y ∈ l := by
  induction l with
  | nil => simp [sortBy]
  | cons h t ih => simp [sortBy, mem_insertBy, ih]

theorem map_insertBy (lt1 : α → α → Bool) (lt2 : β → β → Bool) (f : α → β)
    (hcomm : ∀ a b, lt2 (f a) (f b) = lt1 a b) (x : α) (s : List α) :
    (insertBy lt1 x s).map f = insertBy lt2 (f x) (s.map f) := by
  induction s with
  | nil => simp [insertBy]
  | cons e t ih =>
    simp only [insertBy, List.map_cons, hcomm]
    split <;> simp [List.map_cons, ih]

theorem map_sortBy (lt1 : α → α → Bool) (lt2 : β → β → Bool) (f : α → β)
    (hcomm : ∀ a b, lt2 (f a) (f b) = lt1 a b) (l : List α) :
    (sortBy lt1 l).map f = sortBy lt2 (l.map f) := by
  induction l with
  | nil => simp [sortBy]
  | cons h t ih =>
    simp only [sortBy, List.map_cons]
    rw [map_insertBy lt1 lt2 f hcomm, ih]

theorem headq_insertBy (lt : α → α → Bool) (x e : α) (t : List α) :
    (insertBy lt x (e :: t)).head? = some (if lt e x then e else x) := by
  simp only [insertBy]
  split <;> simp

theorem headq_sortBy_argmax (l : List Vote) :
    (sortBy ltVote l).head? = argmaxFirst l := by
  induction l with
  | nil => rfl
  | cons v t ih =>
    simp only [sortBy, argmaxFirst]
    cases hs : sortBy ltVote t with
    | nil =>
      have ht : t = [] := (sortBy_eq_nil_iff _ _).mp hs
      subst ht
      simp [insertBy, argmaxFirst]
    | cons e s2 =>
      rw [hs] at ih
      have ih2 : argmaxFirst t = some e := by simpa using ih.symm
      rw [headq_insertBy, ih2]
      by_cases h : e.timestamp > v.timestamp
      · simp [ltVote, h]
      · simp [ltVote, h]

theorem filter_insertBy (lt : α → α → Bool) (p : α → Bool) (x : α) :
    ∀ s : List α, (p x = true → ∀ e ∈ s, p e = true → lt e x = false) →
      (insertBy lt x s).filter p =
        if p x then x :: s.filter p else s.filter p := by
  intro s
  induction s with
  | nil =>
    intro _
    simp only [insertBy]
    by_cases hpx : p x <;> simp [List.filter_cons, hpx]
  | cons e t ih =>
    intro hx
    simp only [insertBy]
    by_cases hlt : lt e x
    · rw [if_pos hlt]
      rw [List.filter_cons]
      rw [ih (fun hpx e2 he2 hpe2 => hx hpx e2 (List.mem_cons_of_mem _ he2) hpe2)]
      by_cases hpx : p x
      · have hpe : ¬ p e := by
          intro hpe
          have := hx hpx e (List.mem_cons_self _ _) hpe
          rw [this] at hlt
          exact Bool.false_ne_true hlt
        simp [hpx, hpe, List.filter_cons]
      · simp [hpx, List.filter_cons]
    · rw [if_neg hlt, List.filter_cons]

theorem filter_sortBy (lt : α → α → Bool) (p : α → Bool)
    (H : ∀ a b, p a = true → p b = true → lt a b = false) :
    ∀ l : List α, (sortBy lt l).filter p = l.filter p := by
  intro l
  induction l with
  | nil => rfl
  | cons x t ih =>
    simp only [sortBy]
    rw [filter_insertBy lt p x (sortBy lt t)
      (fun hpx e _ hpe => H e x hpe hpx)]
    rw [ih, List.filter_cons]

theorem insertBy_congr (lt1 lt2 : α → α → Bool) (x : α) :
    ∀ s : List α, (∀ e ∈ s, lt1 e x = lt2 e x) →
      insertBy lt1 x s = insertBy lt2 x s := by
  intro s
  induction s with
  | nil => intro _; rfl
  | cons e t ih =>
    intro h
    simp only [insertBy]
    rw [h e (List.mem_cons_self _ _)]
    by_cases h2 : lt2 e x
    · simp [h2, ih (fun e2 he2 => h e2 (List.mem_cons_of_mem _ he2))]
    · simp [h2]

theorem sortBy_congr (lt1 lt2 : α → α → Bool) :
    ∀ l : List α, (∀ a ∈ l, ∀ b ∈ l, lt1 a b = lt2 a b) →
      sortBy lt1 l = sortBy lt2 l := by
  intro l
  induction l with
  | nil => intro _; rfl
  | cons x t ih =>
    intro h
    simp only [sortBy]
    rw [ih (fun a ha b hb =>
      h a (List.mem_cons_of_mem _ ha) b (List.mem_cons_of_mem _ hb))]
    exact insertBy_congr _ _ _ _ (fun e he =>
      h e (List.mem_cons_of_mem _ ((mem_sortBy lt2 e t).mp he)) x
        (List.mem_cons_self _ _))

theorem pairwise_insertBy_key (k : α → Int) (x : α) :
    ∀ s : List α, s.Pairwise (fun a b => k a ≥ k b) →
      (insertBy (fun a b => decide (k a > k b)) x s).Pairwise
        (fun a b => k a ≥ k b) := by
  intro s
  induction s with
  | nil => intro _; simp [insertBy]
  | cons e t ih =>
    intro hp
    rw [List.pairwise_cons] at hp
    obtain ⟨he, ht⟩ := hp
    simp only [insertBy]
    by_cases hlt : k e > k x
    · simp only [hlt, decide_True, if_true]
      rw [List.pairwise_cons]
      refine ⟨?_, ih ht⟩
      intro y hy
      rcases (mem_insertBy _ _ _ _).mp hy with rfl | hy2
      · omega
      · exact he y hy2
    · simp only [hlt, decide_False, Bool.false_eq_true, if_false]
      rw [List.pairwise_cons]
      refine ⟨?_, List.pairwise_cons.mpr ⟨he, ht⟩⟩
      intro y hy
      rcases List.mem_cons.mp hy with rfl | hy2
      · omega
      · have := he y hy2
        omega

theorem pairwise_sortBy_key (k : α → Int) :
    ∀ l : List α,
      (sortBy (fun a b => decide (k a > k b)) l).Pairwise
        (fun a b => k a ≥ k b) := by
  intro l
  induction l with
  | nil => simp [sortBy]
  | cons x t ih =>
    simp only [sortBy]
    exact pairwise_insertBy_key k x _ ih

/-! ## The numbered-list fold of createVoteEmbed as a map over indices -/

theorem join_cons (a : String) (l : List String) :
    String.join (a :: l) = a ++ String.join l := by
  have general : ∀ (l2 : List String) (acc : String),
      l2.foldl (fun r s => r ++ s) acc = acc ++ l2.foldl (fun r s => r ++ s) "" := by
    intro l2
    induction l2 with
    | nil => intro acc; simp [List.foldl, String.append_empty]
    | cons b t2 ih =>
      intro acc
      simp only [List.foldl]
      rw [ih (acc ++ b), ih ("" ++ b), String.empty_append, String.append_assoc]
  show (a :: l).foldl (fun r s => r ++ s) "" = a ++ String.join l
  simp only [List.foldl]
  rw [general l ("" ++ a), String.empty_append]
  rfl

theorem foldl_entry_eq (off : Int) (td : TimestampData) :
    ∀ (l : List Voter) (acc : String) (i : Nat),
      (l.foldl (fun a v => (a.1 ++ entryFor off td a.2 v, a.2 + 1)) (acc, i)).1
        = acc ++ String.join ((l.enumFrom i).map fun p => entryFor off td p.1 p.2) := by
  intro l
  induction l with
  | nil =>
    intro acc i
    simp [String.join, String.append_empty]
  | cons v t ih =>
    intro acc i
    simp only [List.foldl, List.enumFrom_cons, List.map_cons]
    rw [ih, join_cons, String.append_assoc]

/-! ## Decimal representations are never the empty string -/

theorem toDigitsCore_length_ge (b : Nat) :
    ∀ (fuel n : Nat) (ds : List Char),
      ds.length ≤ (Nat.toDigitsCore b fuel n ds).length := by
  intro fuel
  induction fuel with
  | zero => intro n ds; simp [Nat.toDigitsCore]
  | succ f ih =>
    intro n ds
    simp only [Nat.toDigitsCore]
    split
    · simp
    · calc ds.length ≤ (Nat.digitChar (n % b) :: ds).length := by simp
        _ ≤ _ := ih _ _

theorem toDigits_ne_nil (b n : Nat) : Nat.toDigits b n ≠ [] := by
  unfold Nat.toDigits
  simp only [Nat.toDigitsCore]
  split
  · simp
  · intro h
    have hlen := toDigitsCore_length_ge b n (n / b) [Nat.digitChar (n % b)]
    rw [h] at hlen
    simp at hlen

theorem natRepr_ne_empty (n : Nat) : Nat.repr n ≠ "" := by
  unfold Nat.repr
  intro h
  have hd : Nat.toDigits 10 n = [] := by
    have := congrArg String.data h
    simpa [List.asString] using this
  exact toDigits_ne_nil 10 n hd

theorem intToString_ne_empty (n : Int) : toString n ≠ "" := by
  cases n with
  | ofNat m =>
    show Nat.repr m ≠ ""
    exact natRepr_ne_empty m
  | negSucc m =>
    show "-" ++ toString (m + 1) ≠ ""
    intro h
    have := congrArg String.data h
    simp [String.data_append] at this

/-! ## Concrete fixtures shared by the scenario theorems -/

/-- A concrete standings payload with one voter. -/
def exVoteData : VoteData :=
  { name := some ("Server"), voters := some [⟨"A", "2", []⟩] }

/-- A concrete empty events payload. -/
def exTD : TimestampData := ⟨[]⟩

/-- The fingerprint of the concrete payload pair. -/
def exHash : String := generateDataHash (some exVoteData) (some exTD)

/-- A stored row whose fingerprint matches the concrete payload pair and
which records a message id. -/
def exState : SyncState :=
  { serverId := "k", lastUpdateHash := exHash, lastMessageId := some ("m1")
    updatedAt := 0 }

/-- A transport whose message reads always fail transiently. -/
def exMFTransient : String → FetchResult := fun _ => FetchResult.transientError

/-! ## Claims -/

/-- Claim C1, counterexample: two raw input pairs that differ only in the
ordering of the raw voters array have structurally equal shaped outputs
yet different fingerprint tokens, because generateDataHash hashes the
serialized raw payloads, not the serialized shaped records. -/
theorem hash_differs_on_reordered_raw :
    shape 0 [⟨"A", "2", []⟩, ⟨"B", "1", []⟩] ⟨[]⟩
        = shape 0 [⟨"B", "1", []⟩, ⟨"A", "2", []⟩] ⟨[]⟩
    ∧ generateDataHash
          (some { name := some ("S"), voters := some [⟨"A", "2", []⟩, ⟨"B", "1", []⟩] })
          (some ⟨[]⟩)
        ≠ generateDataHash
          (some { name := some ("S"), voters := some [⟨"B", "1", []⟩, ⟨"A", "2", []⟩] })
          (some ⟨[]⟩) := by
  constructor
  · decide
  · decide

/-- Claim C1, amended: the fingerprint is a deterministic function of the
serialized raw payloads (the voters and votes arrays in fetched order,
extra raw fields included): equal raw serializations always yield an
identical token, but reordering the raw arrays or changing raw fields
can change the token even when the shaped outputs are equal. -/
theorem hash_function_of_raw_serialization (vd vd2 : Option VoteData)
    (td td2 : Option TimestampData)
    (h : serializeRaw vd td = serializeRaw vd2 td2) :
    generateDataHash vd td = generateDataHash vd2 td2 := by
  unfold generateDataHash
  rw [h]

/-- Witness for the amended C1: two payloads differing only in the
top-level server name (which the hash input omits) serialize equally
and hash equally. -/
theorem hash_function_of_raw_serialization_witness :
    serializeRaw (some { name := some ("X"), voters := some [⟨"A", "2", []⟩] }) (some ⟨[]⟩)
        = serializeRaw (some { name := some ("Y"), voters := some [⟨"A", "2", []⟩] }) (some ⟨[]⟩)
    ∧ generateDataHash (some { name := some ("X"), voters := some [⟨"A", "2", []⟩] }) (some ⟨[]⟩)
        = generateDataHash (some { name := some ("Y"), voters := some [⟨"A", "2", []⟩] }) (some ⟨[]⟩) :=
  ⟨by decide, hash_function_of_raw_serialization _ _ _ _ (by decide)⟩

/-- Claim C3: code bug. The conversion strips the timezone label and
ordinal suffix, parses anchored at the fixed GMT-0500 source offset and
adds the constant 10.5-hour delta as the claim says, but it renders the
result through the host-local accessors getDate/getHours/..., so the
output depends on the host timezone: the same input renders differently
on a UTC host (offset 0) and an IST host (offset 330), both labelled
" IST". -/
theorem convert_depends_on_host_offset :
    convertESTtoIST 0 ("July 23rd, 2025 02:27 AM EST")
        = "23/07/2025, 5:57:00 PM IST"
    ∧ convertESTtoIST 330 ("July 23rd, 2025 02:27 AM EST")
        = "23/07/2025, 11:27:00 PM IST"
    ∧ convertESTtoIST 0 ("July 23rd, 2025 02:27 AM EST")
        ≠ convertESTtoIST 330 ("July 23rd, 2025 02:27 AM EST") := by
  refine ⟨?_, ?_, ?_⟩
  · decide
  · decide
  · decide

/-- Claim C6: when either external fetch fails (modelled by a none
payload), the cycle returns with no transport action and no save, so
the persisted row is untouched; the transition is total, so the failure
never escalates. -/
theorem fetch_failure_aborts_cycle (off : Int) (cf : Bool) (vd : Option VoteData)
    (td : Option TimestampData) (st : Option SyncState) (sk newId : String)
    (mf : String → FetchResult) (now : Nat)
    (h : vd = none ∨ td = none) :
    updateVoteMessage off cf vd td st sk mf newId now =
      { actions := [], saved := none } := by
  rcases h with rfl | rfl
  · unfold updateVoteMessage
    split
    · rfl
    · cases td <;> rfl
  · unfold updateVoteMessage
    split
    · rfl
    · cases vd <;> rfl

/-- Witness for C6 at a concrete environment with the standings fetch
failed. -/
theorem fetch_failure_aborts_cycle_witness :
    updateVoteMessage 0 true none (some exTD) (some exState) ("k") exMFTransient ("m2") 7 =
      { actions := [], saved := none } :=
  fetch_failure_aborts_cycle 0 true none (some exTD) (some exState) ("k")
    ("m2") exMFTransient 7 (Or.inl rfl)

/-- Claim C2, counterexample: with the stored fingerprint equal to the
fresh one, a recorded message id, and a message read that fails
transiently (not a definite not-found), the cycle does not abort: it
sends a new message and saves a mutated row, because the try/catch at
lines 224-239 treats every read failure as a missing message. -/
theorem transient_error_mutates_state :
    (updateVoteMessage 0 true (some exVoteData) (some exTD) (some exState)
        ("k") exMFTransient ("m2") 7).actions ≠ []
    ∧ (updateVoteMessage 0 true (some exVoteData) (some exTD) (some exState)
        ("k") exMFTransient ("m2") 7).saved ≠ none := by
  constructor
  · decide
  · decide

/-- Claim C2, amended: a transient transport failure of the existence
check is not distinguished from not-found; in the fingerprint-match
branch it drives the same repost transition, publishing a new message
and persisting a row with the message id replaced (fingerprint
unchanged). -/
theorem transient_error_treated_as_missing (off : Int) (vd : VoteData)
    (td : TimestampData) (st : SyncState) (voters : List Voter)
    (sk newId mid : String) (mf : String → FetchResult) (now : Nat)
    (hmid : st.lastMessageId = some mid)
    (hhash : st.lastUpdateHash = generateDataHash (some vd) (some td))
    (hvoters : vd.voters = some voters)
    (hmf : mf mid = FetchResult.transientError) :
    ∃ body, createVoteEmbed off (some vd) (some td) = some body ∧
      updateVoteMessage off true (some vd) (some td) (some st) sk mf newId now =
        { actions := [Action.send body]
          saved := some { st with lastMessageId := some newId, updatedAt := now } } := by
  obtain ⟨body, hbody⟩ : ∃ body, createVoteEmbed off (some vd) (some td) = some body := by
    simp only [createVoteEmbed, hvoters]
    split
    · exact ⟨_, rfl⟩
    · exact ⟨_, rfl⟩
  refine ⟨body, hbody, ?_⟩
  simp [updateVoteMessage, hhash, hmid, hmf, hbody]

/-- Witness for the amended C2 at a concrete environment. -/
theorem transient_error_treated_as_missing_witness :
    ∃ body, createVoteEmbed 0 (some exVoteData) (some exTD) = some body ∧
      updateVoteMessage 0 true (some exVoteData) (some exTD) (some exState)
          ("k") exMFTransient ("m2") 7 =
        { actions := [Action.send body]
          saved := some { exState with lastMessageId := some ("m2"), updatedAt := 7 } } :=
  transient_error_treated_as_missing 0 exVoteData exTD exState [⟨"A", "2", []⟩]
    ("k") ("m2") ("m1") exMFTransient 7 rfl rfl rfl rfl

/-- Claim C4: with an existing row whose recorded fingerprint equals the
fresh one and a recorded message id, a successful existence check makes
the cycle a no-op with no save, while a definite not-found makes it
publish a new message and save the row with the message id replaced and
the fingerprint value unchanged. -/
theorem unchanged_fingerprint_cases (off : Int) (vd : VoteData)
    (td : TimestampData) (st : SyncState) (voters : List Voter)
    (sk newId mid : String) (mf : String → FetchResult) (now : Nat)
    (hmid : st.lastMessageId = some mid)
    (hhash : st.lastUpdateHash = generateDataHash (some vd) (some td))
    (hvoters : vd.voters = some voters) :
    (mf mid = FetchResult.found →
      updateVoteMessage off true (some vd) (some td) (some st) sk mf newId now =
        { actions := [], saved := none })
    ∧ (mf mid = FetchResult.notFound →
      ∃ body, createVoteEmbed off (some vd) (some td) = some body ∧
        updateVoteMessage off true (some vd) (some td) (some st) sk mf newId now =
          { actions := [Action.send body]
            saved := some { st with lastMessageId := some newId, updatedAt := now } }) := by
  constructor
  · intro hmf
    simp [updateVoteMessage, hhash, hmid, hmf]
  · intro hmf
    obtain ⟨body, hbody⟩ : ∃ body, createVoteEmbed off (some vd) (some td) = some body := by
      simp only [createVoteEmbed, hvoters]
      split
      · exact ⟨_, rfl⟩
      · exact ⟨_, rfl⟩
    refine ⟨body, hbody, ?_⟩
    simp [updateVoteMessage, hhash, hmid, hmf, hbody]

/-- Witness for C4 at a concrete environment: the live case is a no-op
and the not-found case reposts with the fingerprint preserved. -/
theorem unchanged_fingerprint_cases_witness :
    updateVoteMessage 0 true (some exVoteData) (some exTD) (some exState)
        ("k") (fun _ => FetchResult.found) ("m2") 7 =
      { actions := [], saved := none } :=
  (unchanged_fingerprint_cases 0 exVoteData exTD exState [⟨"A", "2", []⟩]
    ("k") ("m2") ("m1") (fun _ => FetchResult.found) 7 rfl rfl rfl).1 rfl

/-- Claim C5: when the fresh fingerprint differs from the stored one and
the referenced message still exists, the cycle edits that message in
place and saves the row with the fingerprint and updatedAt refreshed
while the message id is left unchanged. -/
theorem changed_editable_edits_in_place (off : Int) (vd : VoteData)
    (td : TimestampData) (st : SyncState) (voters : List Voter)
    (sk newId mid : String) (mf : String → FetchResult) (now : Nat)
    (hmid : st.lastMessageId = some mid)
    (hhash : st.lastUpdateHash ≠ generateDataHash (some vd) (some td))
    (hvoters : vd.voters = some voters)
    (hmf : mf mid = FetchResult.found) :
    ∃ body, createVoteEmbed off (some vd) (some td) = some body ∧
      updateVoteMessage off true (some vd) (some td) (some st) sk mf newId now =
        { actions := [Action.edit mid body]
          saved := some { st with
            lastUpdateHash := generateDataHash (some vd) (some td)
            updatedAt := now } } := by
  obtain ⟨body, hbody⟩ : ∃ body, createVoteEmbed off (some vd) (some td) = some body := by
    simp only [createVoteEmbed, hvoters]
    split
    · exact ⟨_, rfl⟩
    · exact ⟨_, rfl⟩
  refine ⟨body, hbody, ?_⟩
  simp [updateVoteMessage, hhash, hmid, hmf, hbody]

/-- Witness for C5 at a concrete environment whose stored fingerprint is
stale. -/
theorem changed_editable_edits_in_place_witness :
    ∃ body, createVoteEmbed 0 (some exVoteData) (some exTD) = some body ∧
      updateVoteMessage 0 true (some exVoteData) (some exTD)
          (some { exState with lastUpdateHash := "stale" })
          ("k") (fun _ => FetchResult.found) ("m2") 7 =
        { actions := [Action.edit ("m1") body]
          saved := some { exState with
            lastUpdateHash := generateDataHash (some exVoteData) (some exTD)
            updatedAt := 7 } } := by
  have h := changed_editable_edits_in_place 0 exVoteData exTD
    { exState with lastUpdateHash := "stale" } [⟨"A", "2", []⟩]
    ("k") ("m2") ("m1") (fun _ => FetchResult.found) 7 rfl (by decide) rfl rfl
  simpa using h

/-- The source's filter-sort-head selection equals the specification's
first-maximal-event selection. -/
theorem getLatest_eq_argmax (td : TimestampData) (nick : String) :
    getLatestTimestampForUser td nick
      = argmaxFirst (td.votes.filter (fun v => v.nickname == nick)) := by
  show (match sortBy ltVote (td.votes.filter fun v => v.nickname == nick) with
    | [] => none
    | v :: _ => some v) = _
  rw [← headq_sortBy_argmax]
  cases sortBy ltVote (td.votes.filter fun v => v.nickname == nick) <;> rfl

/-- Claim C7: the shaped sequence equals the specification's shaping
(latest matching event by maximal ordinal with first-seen tie-break,
"Unknown" sentinel, stable descending sort); ties keep source-relative
order (the filter at any fixed parsed vote count is unchanged by the
sort); and when every vote count parses, the output is sorted
descending by vote count. Determinism is immediate since shape is a
function. -/
theorem shape_matches_spec_and_sorted (off : Int) (voters : List Voter)
    (td : TimestampData) :
    shape off voters td = shapeSpec off voters td
    ∧ (∀ c : Int,
        (shape off voters td).filter (fun r => parseIntJS r.votes == some c)
          = (voters.map (toRecord off td)).filter
              (fun r => parseIntJS r.votes == some c))
    ∧ ((∀ v ∈ voters, (parseIntJS v.votes).isSome = true) →
        (shape off voters td).Pairwise (fun a b =>
          (parseIntJS a.votes).getD 0 ≥ (parseIntJS b.votes).getD 0)) := by
  have hcomm : ∀ a b : Voter,
      ltRecord (toRecord off td a) (toRecord off td b) = ltVoter a b := by
    intro a b; rfl
  refine ⟨?_, ?_, ?_⟩
  · unfold shape shapeSpec
    rw [map_sortBy ltVoter ltRecord _ hcomm]
    congr 1
    apply List.map_congr_left
    intro v _
    unfold toRecord
    rw [getLatest_eq_argmax]
  · intro c
    unfold shape
    rw [List.filter_map, List.filter_map]
    congr 1
    apply filter_sortBy
    intro a b ha hb
    have ha2 : parseIntJS a.votes = some c := eq_of_beq ha
    have hb2 : parseIntJS b.votes = some c := eq_of_beq hb
    simp [ltVoter, ha2, hb2]
  · intro hpar
    have hc : sortBy ltVoter voters
        = sortBy (fun a b : Voter =>
            decide ((parseIntJS a.votes).getD 0 > (parseIntJS b.votes).getD 0))
          voters := by
      apply sortBy_congr
      intro a ha b hb
      obtain ⟨x, hx⟩ := Option.isSome_iff_exists.mp (hpar a ha)
      obtain ⟨y, hy⟩ := Option.isSome_iff_exists.mp (hpar b hb)
      simp [ltVoter, hx, hy]
    unfold shape
    rw [hc]
    exact List.Pairwise.map _ (fun a b hab => hab)
      (pairwise_sortBy_key (fun v : Voter => (parseIntJS v.votes).getD 0) voters)

/-- Witness for C7 at a concrete input with a vote-count tie. -/
theorem shape_matches_spec_and_sorted_witness :
    (∀ v ∈ [(⟨"A", "2", []⟩ : Voter), ⟨"B", "5", []⟩, ⟨"C", "5", []⟩],
        (parseIntJS v.votes).isSome = true)
    ∧ (shape 0 [⟨"A", "2", []⟩, ⟨"B", "5", []⟩, ⟨"C", "5", []⟩] exTD).Pairwise
        (fun a b => (parseIntJS a.votes).getD 0 ≥ (parseIntJS b.votes).getD 0) :=
  ⟨by decide,
   (shape_matches_spec_and_sorted 0
     [⟨"A", "2", []⟩, ⟨"B", "5", []⟩, ⟨"C", "5", []⟩] exTD).2.2 (by decide)⟩

/-- Claim C8: the empty string and the "Unknown" sentinel normalize to
the sentinel unchanged, and any input whose cleaned remainder fails to
parse yields the distinct invalid sentinel; the normalizer is a total
function, so it never throws and never aborts the cycle. -/
theorem normalize_sentinels_and_invalid (off : Int) (s : String)
    (h1 : s ≠ "") (h2 : s ≠ "Unknown")
    (h3 : parseCivil (cleanDateStr s) = none) :
    convertESTtoIST off ("") = "Unknown"
    ∧ convertESTtoIST off ("Unknown") = "Unknown"
    ∧ convertESTtoIST off s = "Invalid Date" := by
  refine ⟨by simp [convertESTtoIST], by simp [convertESTtoIST], ?_⟩
  unfold convertESTtoIST
  rw [if_neg (not_or.mpr ⟨h1, h2⟩), h3]

/-- Witness for C8 at a concrete garbled input. -/
theorem normalize_sentinels_and_invalid_witness :
    ("garbled" : String) ≠ ""
    ∧ ("garbled" : String) ≠ "Unknown"
    ∧ parseCivil (cleanDateStr ("garbled")) = none
    ∧ (convertESTtoIST 0 ("") = "Unknown"
      ∧ convertESTtoIST 0 ("Unknown") = "Unknown"
      ∧ convertESTtoIST 0 ("garbled") = "Invalid Date") :=
  ⟨by decide, by decide, by decide,
   normalize_sentinels_and_invalid 0 ("garbled") (by decide) (by decide) (by decide)⟩

/-- Claim C9: with the voters list present, an empty list renders the
fixed placeholder body, and a non-empty one renders the 1-based
numbered list carrying nickname, vote count and last-activity display
for each sorted record in order. -/
theorem render_empty_placeholder_and_numbered_list (off : Int) (vd : VoteData)
    (td : TimestampData) (voters : List Voter)
    (hvoters : vd.voters = some voters) :
    (voters = [] →
      createVoteEmbed off (some vd) (some td) = some ("No votes this month yet!"))
    ∧ (voters ≠ [] →
      createVoteEmbed off (some vd) (some td) =
        some (String.join ((sortBy ltVoter voters).enum.map
          fun p => entryFor off td p.1 p.2))) := by
  constructor
  · rintro rfl
    simp [createVoteEmbed, hvoters, sortBy]
  · intro hne
    have hsne : sortBy ltVoter voters ≠ [] :=
      fun h => hne ((sortBy_eq_nil_iff _ _).mp h)
    simp only [createVoteEmbed, hvoters]
    rw [if_neg (by simpa [List.length_eq_zero] using hsne)]
    congr 1
    rw [foldl_entry_eq off td (sortBy ltVoter voters) ("") 0]
    rw [String.empty_append]
    rfl

/-- Witness for C9: the placeholder case and the one-record list case at
concrete inputs. -/
theorem render_empty_placeholder_and_numbered_list_witness :
    createVoteEmbed 0 (some { name := none, voters := some [] }) (some exTD)
        = some ("No votes this month yet!")
    ∧ createVoteEmbed 0 (some exVoteData) (some exTD) =
        some (String.join ((sortBy ltVoter [⟨"A", "2", []⟩]).enum.map
          fun p => entryFor 0 exTD p.1 p.2)) :=
  ⟨(render_empty_placeholder_and_numbered_list 0
      { name := none, voters := some [] } exTD [] rfl).1 rfl,
   (render_empty_placeholder_and_numbered_list 0 exVoteData exTD
      [⟨"A", "2", []⟩] rfl).2 (by decide)⟩

/-- Range of the 32-bit wrap. -/
theorem toInt32_range (n : Int) :
    -2147483648 ≤ toInt32 n ∧ toInt32 n < 2147483648 := by
  unfold toInt32
  have h1 := Int.emod_nonneg (n + 2147483648)
    (by norm_num : (4294967296 : Int) ≠ 0)
  have h2 := Int.emod_lt_of_pos (n + 2147483648)
    (by norm_num : (0 : Int) < 4294967296)
  omega

/-- The rolling hash always stays in the signed 32-bit range. -/
theorem hashString_range (s : String) :
    -2147483648 ≤ hashString s ∧ hashString s < 2147483648 := by
  unfold hashString
  have general : ∀ (l : List Char) (h : Int),
      -2147483648 ≤ h ∧ h < 2147483648 →
      -2147483648 ≤ l.foldl (fun h c => hashStep h c.toNat) h
        ∧ l.foldl (fun h c => hashStep h c.toNat) h < 2147483648 := by
    intro l
    induction l with
    | nil => intro h hh; simpa using hh
    | cons c t ih =>
      intro h _
      simp only [List.foldl]
      exact ih _ (by unfold hashStep; exact toInt32_range _)
  exact general _ 0 (by norm_num)

/-- Claim C10, counterexample: on the first cycle for the key (no stored
row) with a standings payload lacking the voters array, the unchanged
branch is not taken, yet no message is published: embed creation fails
and the cycle aborts with no action and no save. -/
theorem first_cycle_no_publish_without_voters :
    updateVoteMessage 0 true (some { name := none, voters := none }) (some ⟨[]⟩)
        none ("k") (fun _ => FetchResult.found) ("m1") 5 =
      { actions := [], saved := none } := by
  decide

/-- Claim C10, amended: the fingerprint is always the decimal string of a
signed 32-bit integer and is never the empty string, so it never equals
the empty-string default of a fresh row and the unchanged branch is
never taken on the first cycle; a new message is then published and a
fresh row saved, provided the standings payload carries a voters array
(when the voters field is absent, embed creation fails and the first
cycle publishes nothing). -/
theorem hash_int32_and_first_cycle (vd : Option VoteData)
    (td : Option TimestampData) (vd2 : VoteData) (td2 : TimestampData)
    (voters : List Voter) (off : Int) (sk newId : String)
    (mf : String → FetchResult) (now : Nat)
    (hvoters : vd2.voters = some voters) :
    (∃ n : Int, -2147483648 ≤ n ∧ n < 2147483648
        ∧ generateDataHash vd td = toString n)
    ∧ generateDataHash vd td ≠ ""
    ∧ (∃ body, createVoteEmbed off (some vd2) (some td2) = some body ∧
        updateVoteMessage off true (some vd2) (some td2) none sk mf newId now =
          { actions := [Action.send body]
            saved := some { serverId := sk
                            lastUpdateHash := generateDataHash (some vd2) (some td2)
                            lastMessageId := some newId
                            updatedAt := now } }) := by
  refine ⟨⟨hashString (serializeRaw vd td), (hashString_range _).1,
    (hashString_range _).2, rfl⟩, ?_, ?_⟩
  · unfold generateDataHash
    exact intToString_ne_empty _
  · obtain ⟨body, hbody⟩ : ∃ body, createVoteEmbed off (some vd2) (some td2) = some body := by
      simp only [createVoteEmbed, hvoters]
      split
      · exact ⟨_, rfl⟩
      · exact ⟨_, rfl⟩
    refine ⟨body, hbody, ?_⟩
    have hne2 : generateDataHash (some vd2) (some td2) ≠ "" := by
      unfold generateDataHash
      exact intToString_ne_empty _
    have hne : ("" : String) ≠ generateDataHash (some vd2) (some td2) :=
      fun h => hne2 h.symm
    simp [updateVoteMessage, hbody, hne]

/-- Witness for the amended C10 at a concrete first-cycle environment. -/
theorem hash_int32_and_first_cycle_witness :
    (∃ n : Int, -2147483648 ≤ n ∧ n < 2147483648
        ∧ generateDataHash none none = toString n)
    ∧ generateDataHash none none ≠ ""
    ∧ (∃ body, createVoteEmbed 0 (some exVoteData) (some exTD) = some body ∧
        updateVoteMessage 0 true (some exVoteData) (some exTD) none ("k")
            exMFTransient ("m2") 7 =
          { actions := [Action.send body]
            saved := some { serverId := "k"
                            lastUpdateHash := generateDataHash (some exVoteData) (some exTD)
                            lastMessageId := some ("m2")
                            updatedAt := 7 } }) :=
  hash_int32_and_first_cycle none none exVoteData exTD [⟨"A", "2", []⟩] 0 ("k")
    ("m2") exMFTransient 7 rfl

end VoteBot
